import Mathlib

/-!
Shallow embedding of the recommendation core of the sg-makan-recommender
repository (src/backend/ai_system.py, src/backend/config.py,
src/backend/models.py).  Python floats are modelled as rationals; the
per-request pipeline is modelled as pure functions over explicit inputs.
-/

namespace Makan

/-- A dish from the catalog (src/backend/models.py, class Dish).  Only the
fields read by the recommendation engine are modelled. -/
structure Dish where
  name : String
  price : ℚ
  cuisine : String
  spiciness : ℚ
  meal_type : String
  is_halal : Bool
  is_vegetarian : Bool
deriving DecidableEq

/-- User preferences (src/backend/models.py, class UserPreferences). -/
structure UserPreferences where
  budget : ℚ
  cuisine : String
  spiciness : ℚ
  is_halal : Bool
  is_vegetarian : Bool
  meal_type : Option String
deriving DecidableEq

/-- One triangular fuzzy term (low, mid, high) from the fuzzy configuration
document. -/
structure FuzzyTerm where
  low : ℚ
  mid : ℚ
  high : ℚ
deriving DecidableEq

/-- The six input terms of the fuzzy configuration: three budget terms and
three spiciness terms (the external fuzzy_config.json document). -/
structure FuzzyConfig where
  budget_low : FuzzyTerm
  budget_medium : FuzzyTerm
  budget_high : FuzzyTerm
  spice_mild : FuzzyTerm
  spice_medium : FuzzyTerm
  spice_spicy : FuzzyTerm
deriving DecidableEq

/-- Triangular membership (src/backend/ai_system.py, fuzzy_membership,
lines 201-210), including the Python ternaries guarding division by zero. -/
def fuzzy_membership (value low mid high : ℚ) : ℚ :=
  if value ≤ low then (if value = low then 1 else 0)
  else if value ≤ mid then (if mid ≠ low then (value - low) / (mid - low) else 1)
  else if value ≤ high then (if high ≠ mid then (high - value) / (high - mid) else 1)
  else 0

/-- Simplified fuzzy inference (src/backend/ai_system.py,
simple_fuzzy_inference, lines 144-198): min-max activation of the 9-rule
table, weighted-average defuzzification over 8/5/2, clamp to [0,10]. -/
def simple_fuzzy_inference (cfg : FuzzyConfig) (budget spiciness : ℚ) : ℚ :=
  let budget_low := fuzzy_membership budget cfg.budget_low.low cfg.budget_low.mid cfg.budget_low.high
  let budget_medium := fuzzy_membership budget cfg.budget_medium.low cfg.budget_medium.mid cfg.budget_medium.high
  let budget_high := fuzzy_membership budget cfg.budget_high.low cfg.budget_high.mid cfg.budget_high.high
  let spice_mild := fuzzy_membership spiciness cfg.spice_mild.low cfg.spice_mild.mid cfg.spice_mild.high
  let spice_medium := fuzzy_membership spiciness cfg.spice_medium.low cfg.spice_medium.mid cfg.spice_medium.high
  let spice_spicy := fuzzy_membership spiciness cfg.spice_spicy.low cfg.spice_spicy.mid cfg.spice_spicy.high
  let act_high := max (max (min budget_low spice_mild) (min budget_medium spice_medium)) (min budget_high spice_spicy)
  let act_medium := max (max (max (max (min budget_low spice_medium) (min budget_low spice_spicy)) (min budget_medium spice_mild)) (min budget_medium spice_spicy)) (min budget_high spice_medium)
  let act_low := min budget_high spice_mild
  let total_activation := act_high + act_medium + act_low
  let score := if total_activation > 0 then (act_high * 8 + act_medium * 5 + act_low * 2) / total_activation else 0
  max 0 (min 10 score)

/-- The fixed 9-rule table of the spec (budget term, spiciness term, output
term), in source order. -/
def rule_table : List (String × String × String) :=
  [("low", "mild", "high"),
   ("low", "medium", "medium"),
   ("low", "spicy", "medium"),
   ("medium", "mild", "medium"),
   ("medium", "medium", "high"),
   ("medium", "spicy", "medium"),
   ("high", "mild", "low"),
   ("high", "medium", "medium"),
   ("high", "spicy", "high")]

/-- Membership degree of the budget input against a named budget term. -/
def budget_degree (cfg : FuzzyConfig) (budget : ℚ) (term : String) : ℚ :=
  if term = "low" then fuzzy_membership budget cfg.budget_low.low cfg.budget_low.mid cfg.budget_low.high
  else if term = "medium" then fuzzy_membership budget cfg.budget_medium.low cfg.budget_medium.mid cfg.budget_medium.high
  else fuzzy_membership budget cfg.budget_high.low cfg.budget_high.mid cfg.budget_high.high

/-- Membership degree of the spiciness input against a named spiciness term. -/
def spice_degree (cfg : FuzzyConfig) (spiciness : ℚ) (term : String) : ℚ :=
  if term = "mild" then fuzzy_membership spiciness cfg.spice_mild.low cfg.spice_mild.mid cfg.spice_mild.high
  else if term = "medium" then fuzzy_membership spiciness cfg.spice_medium.low cfg.spice_medium.mid cfg.spice_medium.high
  else fuzzy_membership spiciness cfg.spice_spicy.low cfg.spice_spicy.mid cfg.spice_spicy.high

/-- Antecedent strength of one rule: min of its two term degrees. -/
def rule_strength (cfg : FuzzyConfig) (budget spiciness : ℚ) (r : String × String × String) : ℚ :=
  min (budget_degree cfg budget r.1) (spice_degree cfg spiciness r.2.1)

/-- Maximum of a list of rationals (0 on the empty list; every output term
of the rule table has at least one rule, so the default is never used). -/
def max_list : List ℚ → ℚ
  | [] => 0
  | x :: xs => xs.foldl max x

/-- Aggregated activation of one output term: max over all rules of the
table whose consequence is that term. -/
def aggregated_activation (cfg : FuzzyConfig) (budget spiciness : ℚ) (term : String) : ℚ :=
  max_list ((rule_table.filter (fun r => r.2.2 == term)).map (rule_strength cfg budget spiciness))

/-- The base fuzzy score as the spec states the algorithm: per-rule min,
per-term max, weighted average with representative values low=2, medium=5,
high=8, zero when total activation is zero, clamped to [0,10]. -/
def spec_fuzzy_score (cfg : FuzzyConfig) (budget spiciness : ℚ) : ℚ :=
  let aL := aggregated_activation cfg budget spiciness "low"
  let aM := aggregated_activation cfg budget spiciness "medium"
  let aH := aggregated_activation cfg budget spiciness "high"
  let total := aL + aM + aH
  let score := if total > 0 then (aL * 2 + aM * 5 + aH * 8) / total else 0
  max 0 (min 10 score)

theorem weighted_avg_comm (aL aM aH : ℚ) :
    (if aH + aM + aL > 0 then (aH * 8 + aM * 5 + aL * 2) / (aH + aM + aL) else 0) =
    (if aL + aM + aH > 0 then (aL * 2 + aM * 5 + aH * 8) / (aL + aM + aH) else 0) := by
  rw [show aH + aM + aL = aL + aM + aH from by ring,
      show aH * 8 + aM * 5 + aL * 2 = aL * 2 + aM * 5 + aH * 8 from by ring]

/-- Python str.lower() as used by the engine for case-insensitive
comparisons, modelled as a structural character map. -/
def lower (s : String) : String := ⟨s.data.map Char.toLower⟩

/-- Default scoring bonuses (src/backend/config.py, lines 19-22 and
ScoringConfig): the values used when no environment override is present. -/
def CUISINE_BONUS : ℚ := 1

/-- Default halal bonus (src/backend/config.py, line 20). -/
def HALAL_BONUS : ℚ := 2

/-- Default vegetarian bonus (src/backend/config.py, line 21). -/
def VEGETARIAN_BONUS : ℚ := 2

/-- Default meal-type bonus (src/backend/config.py, line 22). -/
def MEAL_TYPE_BONUS : ℚ := 5

/-- Default result-list cap (src/backend/config.py, line 16,
Settings.max_recommendations). -/
def max_recommendations : Nat := 3

/-- The hard budget filter of the scoring loop (src/backend/ai_system.py,
line 253: dish.price > budget) and of _dish_passes_filters (line 375). -/
def budget_excludes (prefs : UserPreferences) (dish : Dish) : Bool :=
  dish.price > prefs.budget

/-- The cuisine clause of _dish_passes_filters (src/backend/ai_system.py,
lines 379-381). -/
def cuisine_excludes (prefs : UserPreferences) (dish : Dish) : Bool :=
  lower prefs.cuisine != "any" && lower dish.cuisine != lower prefs.cuisine

/-- The halal clause of _dish_passes_filters (line 384). -/
def halal_excludes (prefs : UserPreferences) (dish : Dish) : Bool :=
  prefs.is_halal && !dish.is_halal

/-- The vegetarian clause of _dish_passes_filters (line 387). -/
def veg_excludes (prefs : UserPreferences) (dish : Dish) : Bool :=
  prefs.is_vegetarian && !dish.is_vegetarian

/-- _dish_passes_filters (src/backend/ai_system.py, lines 372-390). -/
def dish_passes_filters (prefs : UserPreferences) (dish : Dish) : Bool :=
  !budget_excludes prefs dish && !cuisine_excludes prefs dish &&
    !halal_excludes prefs dish && !veg_excludes prefs dish

/-- The scoring body of calculate_recommendations for one dish
(src/backend/ai_system.py, lines 256-292): base fuzzy score, then the four
bonus rules with their reason strings, in source order.  The meal-type
guard models Python truthiness: None and the empty string both fail. -/
def score_and_reasons (cfg : FuzzyConfig) (prefs : UserPreferences) (dish : Dish) : ℚ × List String :=
  let base_score := simple_fuzzy_inference cfg prefs.budget prefs.spiciness
  let r0 : List String := if base_score > 0 then ["Base compatibility score"] else []
  let fires_cuisine := lower prefs.cuisine == "any" || lower prefs.cuisine == lower dish.cuisine
  let s1 := if fires_cuisine then base_score + CUISINE_BONUS else base_score
  let r1 := if fires_cuisine then r0 ++ ["Matches cuisine: " ++ dish.cuisine] else r0
  let fires_halal := prefs.is_halal && dish.is_halal
  let s2 := if fires_halal then s1 + HALAL_BONUS else s1
  let r2 := if fires_halal then r1 ++ ["Is Halal"] else r1
  let fires_veg := prefs.is_vegetarian && dish.is_vegetarian
  let s3 := if fires_veg then s2 + VEGETARIAN_BONUS else s2
  let r3 := if fires_veg then r2 ++ ["Is Vegetarian"] else r2
  let fires_meal :=
    match prefs.meal_type with
    | none => false
    | some mt => !(mt == "") && (lower mt == lower dish.meal_type)
  let s4 := if fires_meal then s3 + MEAL_TYPE_BONUS else s3
  let r4 := if fires_meal then r3 ++ ["Matches meal type: " ++ dish.meal_type] else r3
  (s4, r4)

/-- One scored dish of the result list (src/backend/ai_system.py,
lines 296-300). -/
structure ScoredDish where
  dish : Dish
  score : ℚ
  reasons : List String
deriving DecidableEq

/-- One iteration of the loop of calculate_recommendations
(src/backend/ai_system.py, lines 251-300): budget filter, scoring, and the
final-score-positive gate. -/
def score_dish (cfg : FuzzyConfig) (prefs : UserPreferences) (dish : Dish) : Option ScoredDish :=
  if budget_excludes prefs dish then none
  else
    let sr := score_and_reasons cfg prefs dish
    if sr.1 > 0 then some ⟨dish, sr.1, sr.2⟩ else none

/-- calculate_recommendations (src/backend/ai_system.py, lines 244-301):
the scored-dishes list, in catalog order. -/
def calculate_recommendations (cfg : FuzzyConfig) (dishes : List Dish) (prefs : UserPreferences) : List ScoredDish :=
  dishes.filterMap (score_dish cfg prefs)

/-- Recommendation metadata (src/backend/models.py,
RecommendationMetadata, and src/backend/ai_system.py, lines 327-334). -/
structure RecommendationMetadata where
  total_candidates : Nat
  filtered_candidates : Nat
  scoring_method : String
  filters_applied : List String
  suggestions : Option String
deriving DecidableEq

/-- The final text assembly of _generate_suggestions
(src/backend/ai_system.py, lines 408-411). -/
def suggestions_text (suggestions : List String) : String :=
  if suggestions.isEmpty then "Try adjusting your preferences for more options."
  else "To find more options, " ++ String.intercalate " or " suggestions ++ "."

/-- _generate_suggestions (src/backend/ai_system.py, lines 392-411). -/
def generate_suggestions (fa : List String) : String :=
  suggestions_text
    ((if fa.contains "budget" then ["try increasing your budget"] else []) ++
     (if fa.contains "cuisine" then ["consider trying \x27any\x27 cuisine type"] else []) ++
     (if fa.contains "halal" then ["expand to include non-halal options if acceptable"] else []) ++
     (if fa.contains "vegetarian" then ["consider non-vegetarian options if acceptable"] else []))

/-- get_recommendations (src/backend/ai_system.py, lines 303-370):
metadata assembly, empty-result handling, stable descending sort by score
(Python sorted is stable) and truncation to maxRec. -/
def get_recommendations (cfg : FuzzyConfig) (maxRec : Nat) (dishes : List Dish) (prefs : UserPreferences) : List ScoredDish × RecommendationMetadata :=
  let total_candidates := dishes.length
  let scored := calculate_recommendations cfg dishes prefs
  let filtered_count := (dishes.filter (fun d => dish_passes_filters prefs d)).length
  let fa : List String :=
    (if dishes.any (fun d => budget_excludes prefs d) then ["budget"] else []) ++
    (if lower prefs.cuisine != "any" then ["cuisine"] else []) ++
    (if prefs.is_halal then ["halal"] else []) ++
    (if prefs.is_vegetarian then ["vegetarian"] else [])
  if scored.isEmpty then
    ([], { total_candidates := total_candidates, filtered_candidates := filtered_count,
           scoring_method := "fuzzy_logic_with_expert_system", filters_applied := fa,
           suggestions := some (generate_suggestions fa) })
  else
    ((List.insertionSort (fun a b => b.score ≤ a.score) scored).take maxRec,
     { total_candidates := total_candidates, filtered_candidates := filtered_count,
       scoring_method := "fuzzy_logic_with_expert_system", filters_applied := fa,
       suggestions := none })

/-! ### Concrete inputs used by witnesses and counterexamples -/

/-- A well-formed fuzzy configuration whose terms all have support (1,2,3),
so both inputs 0 have membership 0 everywhere and the base score is 0. -/
def cfg0 : FuzzyConfig := ⟨⟨1, 2, 3⟩, ⟨1, 2, 3⟩, ⟨1, 2, 3⟩, ⟨1, 2, 3⟩, ⟨1, 2, 3⟩, ⟨1, 2, 3⟩⟩

/-- A wildcard-cuisine preference with budget 0. -/
def p1 : UserPreferences := ⟨0, "any", 0, false, false, none⟩

/-- A dish priced exactly at the budget of p1. -/
def d1 : Dish := ⟨"Laksa", 0, "Malay", 0, "main_course", false, false⟩

/-- The scored result of d1 under cfg0 and p1: base 0 plus cuisine bonus 1. -/
def r1 : ScoredDish := ⟨d1, 1, ["Matches cuisine: Malay"]⟩

theorem base_score_cfg0 : simple_fuzzy_inference cfg0 0 0 = 0 := by
  norm_num [simple_fuzzy_inference, fuzzy_membership, cfg0]

theorem score_dish_eval : score_dish cfg0 p1 d1 = some r1 := by
  have hc : lower "any" = "any" := rfl
  have hm : ("Matches cuisine: " ++ "Malay" : String) = "Matches cuisine: Malay" := rfl
  simp only [score_dish, score_and_reasons, budget_excludes, p1, d1, r1, hc, hm]
  norm_num [base_score_cfg0, CUISINE_BONUS]

theorem result_eval : (get_recommendations cfg0 3 [d1] p1).1 = [r1] := by
  have hscored : calculate_recommendations cfg0 [d1] p1 = [r1] := by
    simp [calculate_recommendations, score_dish_eval]
  simp [get_recommendations, hscored]

/-! ### Helper lemmas about the scoring pipeline -/

theorem score_dish_eq_some {cfg : FuzzyConfig} {prefs : UserPreferences} {dish : Dish}
    {r : ScoredDish} (h : score_dish cfg prefs dish = some r) :
    r.dish = dish ∧ dish.price ≤ prefs.budget ∧ 0 < r.score := by
  simp only [score_dish] at h
  by_cases hb : budget_excludes prefs dish = true
  · rw [if_pos hb] at h
    exact absurd h (by simp)
  · rw [if_neg hb] at h
    by_cases hs : 0 < (score_and_reasons cfg prefs dish).1
    · rw [if_pos hs] at h
      rw [Option.some_inj] at h
      subst h
      refine ⟨rfl, ?_, hs⟩
      have hb2 : ¬ (dish.price > prefs.budget) := by
        simpa [budget_excludes] using hb
      exact not_lt.mp hb2
    · rw [if_neg hs] at h
      exact absurd h (by simp)

theorem mem_calculate {cfg : FuzzyConfig} {dishes : List Dish} {prefs : UserPreferences}
    {r : ScoredDish} (h : r ∈ calculate_recommendations cfg dishes prefs) :
    ∃ d ∈ dishes, score_dish cfg prefs d = some r := by
  simpa [calculate_recommendations, List.mem_filterMap] using h

theorem mem_result {cfg : FuzzyConfig} {maxRec : Nat} {dishes : List Dish}
    {prefs : UserPreferences} {r : ScoredDish}
    (h : r ∈ (get_recommendations cfg maxRec dishes prefs).1) :
    r ∈ calculate_recommendations cfg dishes prefs := by
  simp only [get_recommendations] at h
  by_cases he : (calculate_recommendations cfg dishes prefs).isEmpty = true
  · rw [if_pos he] at h
    exact absurd h (List.not_mem_nil r)
  · rw [if_neg he] at h
    exact (List.mem_insertionSort _).mp (List.take_subset _ _ h)

/-! ### Claim theorems -/

/-- C1: every item in the returned recommendation list has price less than
or equal to preference.budget, and a candidate whose price equals the
budget exactly is not excluded by the hard budget filter. -/
theorem C1_budget_filter (cfg : FuzzyConfig) (maxRec : Nat) (dishes : List Dish)
    (prefs : UserPreferences) :
    (∀ r ∈ (get_recommendations cfg maxRec dishes prefs).1, r.dish.price ≤ prefs.budget) ∧
    (∀ dish : Dish, dish.price = prefs.budget → budget_excludes prefs dish = false) := by
  constructor
  · intro r hr
    obtain ⟨d, _, hd⟩ := mem_calculate (mem_result hr)
    obtain ⟨hdish, hle, _⟩ := score_dish_eq_some hd
    rw [hdish]
    exact hle
  · intro dish h
    simp [budget_excludes, h]

theorem C1_budget_filter_witness :
    r1.dish.price ≤ p1.budget ∧ budget_excludes p1 d1 = false :=
  ⟨(C1_budget_filter cfg0 3 [d1] p1).1 r1 (by simp [result_eval]),
   (C1_budget_filter cfg0 3 [d1] p1).2 d1 (by norm_num [d1, p1])⟩

/-- C2: every returned element has final_score strictly positive, and the
returned list has at most max_recommendations elements (default 3). -/
theorem C2_result_invariants (cfg : FuzzyConfig) (dishes : List Dish)
    (prefs : UserPreferences) :
    (∀ r ∈ (get_recommendations cfg max_recommendations dishes prefs).1, 0 < r.score) ∧
    (get_recommendations cfg max_recommendations dishes prefs).1.length ≤ max_recommendations ∧
    max_recommendations = 3 := by
  refine ⟨?_, ?_, rfl⟩
  · intro r hr
    obtain ⟨d, _, hd⟩ := mem_calculate (mem_result hr)
    exact (score_dish_eq_some hd).2.2
  · simp only [get_recommendations]
    by_cases he : (calculate_recommendations cfg dishes prefs).isEmpty = true
    · rw [if_pos he]
      simp
    · rw [if_neg he]
      exact List.length_take_le _ _

theorem C2_result_invariants_witness :
    0 < r1.score ∧
    (get_recommendations cfg0 max_recommendations [d1] p1).1.length ≤ max_recommendations :=
  ⟨(C2_result_invariants cfg0 [d1] p1).1 r1 (by simp [max_recommendations, result_eval]),
   (C2_result_invariants cfg0 [d1] p1).2.1⟩

/-- C5: the base fuzzy score computed by the code equals the spec's
algorithm over the fixed 9-rule table: per-rule min of the two term
degrees, per-output-term max, weighted average of representative values
2/5/8 by activation, 0 when total activation is 0, clamped to [0,10]. -/
theorem C5_fuzzy_score_matches_spec (cfg : FuzzyConfig) (b s : ℚ) :
    simple_fuzzy_inference cfg b s = spec_fuzzy_score cfg b s :=
  congrArg (fun t => max 0 (min 10 t))
    (weighted_avg_comm (aggregated_activation cfg b s "low")
      (aggregated_activation cfg b s "medium")
      (aggregated_activation cfg b s "high"))

/-- C3 counterexample: with the well-formed term (low, mid, high) =
(0, 15, 20), the code returns membership 1.0 at value = 0 = low although
value is not mid and low is not mid, so "returns 1.0 only when value == mid,
or when value == low and low == mid" is false. -/
theorem C3_membership_counterexample :
    fuzzy_membership 0 0 15 20 = 1 ∧ (0 : ℚ) ≤ 15 ∧ (15 : ℚ) ≤ 20 ∧
    ¬((0 : ℚ) = 15) ∧ ¬((0 : ℚ) = 0 ∧ (0 : ℚ) = 15) := by
  refine ⟨?_, by norm_num, by norm_num, by norm_num, by norm_num⟩
  norm_num [fuzzy_membership]

/-- C3 amended: for low ≤ mid ≤ high, membership is 1.0 exactly when
value = low or value = mid; it is 0.0 for every value < low and every
value > high, and at value = high whenever mid < high (the right boundary
is open unless the right ramp is degenerate). -/
theorem C3_membership_boundaries (v low mid high : ℚ) (h1 : low ≤ mid) (h2 : mid ≤ high) :
    (fuzzy_membership v low mid high = 1 ↔ (v = low ∨ v = mid)) ∧
    (v < low → fuzzy_membership v low mid high = 0) ∧
    (high < v → fuzzy_membership v low mid high = 0) ∧
    (v = high → mid < high → fuzzy_membership v low mid high = 0) := by
  refine ⟨?_, ?_, ?_, ?_⟩
  · unfold fuzzy_membership
    split_ifs with hA hB hC hD hE hF
    · exact ⟨fun _ => Or.inl hB, fun _ => rfl⟩
    · constructor
      · intro h
        exact absurd h (by norm_num)
      · rintro (h | h)
        · exact absurd h hB
        · exact absurd (le_antisymm hA (h ▸ h1)) hB
    · rw [div_eq_one_iff_eq (sub_ne_zero_of_ne hD)]
      constructor
      · intro h
        right
        linarith
      · rintro (h | h)
        · exact absurd h.le hA
        · rw [h]
    · exact absurd (le_trans hC (le_of_eq (not_not.mp hD))) hA
    · rw [div_eq_one_iff_eq (sub_ne_zero_of_ne hF)]
      constructor
      · intro h
        exact absurd (show v ≤ mid by linarith) hC
      · rintro (h | h)
        · exact absurd (h ▸ h1 : v ≤ mid) hC
        · exact absurd h.le hC
    · exact absurd (le_trans hE (le_of_eq (not_not.mp hF))) hC
    · constructor
      · intro h
        exact absurd h (by norm_num)
      · rintro (h | h) <;> exact absurd (show v ≤ high by linarith) hE
  · intro hv
    unfold fuzzy_membership
    split_ifs with hA hB hC hD hE hF
    · exact absurd hB (ne_of_lt hv)
    · rfl
    all_goals exact absurd hv.le hA
  · intro hv
    unfold fuzzy_membership
    split_ifs with hA hB hC hD hE hF
    · exfalso; linarith
    · rfl
    · exfalso; linarith
    · exfalso; linarith
    · exfalso; linarith
    · exfalso; linarith
    · rfl
  · intro hv hmh
    unfold fuzzy_membership
    split_ifs with hA hB hC hD hE hF
    · exfalso
      linarith
    · exfalso
      linarith
    · exfalso
      linarith
    · exfalso
      linarith
    · rw [hv, sub_self, zero_div]
    · exfalso
      linarith [not_not.mp hF]
    · rfl

theorem C3_membership_boundaries_witness :
    ((0 : ℚ) ≤ 15 ∧ (15 : ℚ) ≤ 20) ∧
    ((fuzzy_membership 5 0 15 20 = 1 ↔ ((5 : ℚ) = 0 ∨ (5 : ℚ) = 15)) ∧
     ((5 : ℚ) < 0 → fuzzy_membership 5 0 15 20 = 0) ∧
     ((20 : ℚ) < 5 → fuzzy_membership 5 0 15 20 = 0) ∧
     ((5 : ℚ) = 20 → (15 : ℚ) < 20 → fuzzy_membership 5 0 15 20 = 0)) :=
  ⟨⟨by norm_num, by norm_num⟩, C3_membership_boundaries 5 0 15 20 (by norm_num) (by norm_num)⟩

/-- C4: for low ≤ mid ≤ high the membership value lies in [0,1], equals
the rising ramp (v-low)/(mid-low) on (low, mid), equals the falling ramp
(high-v)/(high-mid) on (mid, high), and is 1.0 at v = mid. -/
theorem C4_membership_ramps (v low mid high : ℚ) (h1 : low ≤ mid) (h2 : mid ≤ high) :
    0 ≤ fuzzy_membership v low mid high ∧ fuzzy_membership v low mid high ≤ 1 ∧
    (low < v → v < mid → fuzzy_membership v low mid high = (v - low) / (mid - low)) ∧
    (mid < v → v < high → fuzzy_membership v low mid high = (high - v) / (high - mid)) ∧
    fuzzy_membership mid low mid high = 1 := by
  refine ⟨?_, ?_, ?_, ?_, ?_⟩
  · unfold fuzzy_membership
    split_ifs with hA hB hC hD hE hF
    any_goals norm_num
    · exact div_nonneg (by linarith) (by linarith)
    · exact div_nonneg (by linarith) (by linarith)
  · unfold fuzzy_membership
    split_ifs with hA hB hC hD hE hF
    any_goals norm_num
    · rw [div_le_one (by rcases lt_or_eq_of_le h1 with h | h; linarith; exact absurd h.symm hD)]
      linarith
    · rw [div_le_one (by rcases lt_or_eq_of_le h2 with h | h; linarith; exact absurd h (Ne.symm hF))]
      linarith
  · intro hl hm
    unfold fuzzy_membership
    split_ifs with hA hB hC hD hE hF
    any_goals rfl
    any_goals exfalso
    · linarith
    · linarith
    · linarith [not_not.mp hD]
    all_goals exact hC hm.le
  · intro hl hm
    unfold fuzzy_membership
    split_ifs with hA hB hC hD hE hF
    any_goals rfl
    any_goals exfalso
    · linarith
    · linarith
    · linarith
    · linarith
    · linarith [not_not.mp hF]
    · exact hE hm.le
  · unfold fuzzy_membership
    split_ifs with hA hB hC hD hE
    all_goals first
      | rfl
      | exact absurd (le_antisymm hA h1) hB
      | exact div_self (sub_ne_zero_of_ne hD)
      | exact absurd (le_refl mid) hC

theorem C4_membership_ramps_witness :
    ((0 : ℚ) ≤ 15 ∧ (15 : ℚ) ≤ 20) ∧
    (0 ≤ fuzzy_membership 17 0 15 20 ∧ fuzzy_membership 17 0 15 20 ≤ 1 ∧
     ((0 : ℚ) < 17 → (17 : ℚ) < 15 → fuzzy_membership 17 0 15 20 = (17 - 0) / (15 - 0)) ∧
     ((15 : ℚ) < 17 → (17 : ℚ) < 20 → fuzzy_membership 17 0 15 20 = (20 - 17) / (20 - 15)) ∧
     fuzzy_membership 15 0 15 20 = 1) :=
  ⟨⟨by norm_num, by norm_num⟩, C4_membership_ramps 17 0 15 20 (by norm_num) (by norm_num)⟩

/-- The bonus-rule table as claim C6 states it (condition, bonus, reason),
in the fixed order cuisine, halal, vegetarian, meal type.  The meal-type
condition is the claim's reading: preference.meal_type is set (not None)
and equals item.meal_type case-insensitively. -/
def claimed_bonus_rules (prefs : UserPreferences) (dish : Dish) : List (Bool × ℚ × String) :=
  [(lower prefs.cuisine == "any" || lower prefs.cuisine == lower dish.cuisine,
    CUISINE_BONUS, "Matches cuisine: " ++ dish.cuisine),
   (prefs.is_halal && dish.is_halal, HALAL_BONUS, "Is Halal"),
   (prefs.is_vegetarian && dish.is_vegetarian, VEGETARIAN_BONUS, "Is Vegetarian"),
   (prefs.meal_type.isSome && (lower (prefs.meal_type.getD "") == lower dish.meal_type),
    MEAL_TYPE_BONUS, "Matches meal type: " ++ dish.meal_type)]

/-- Final score and reasons as claim C6 states them: base score plus the
bonuses of exactly the fired rules, and the base reason iff base score > 0
followed by the fired rules' reasons in table order. -/
def claimed_score_and_reasons (cfg : FuzzyConfig) (prefs : UserPreferences) (dish : Dish) : ℚ × List String :=
  let base := simple_fuzzy_inference cfg prefs.budget prefs.spiciness
  let fired := (claimed_bonus_rules prefs dish).filter (fun r => r.1)
  (base + (fired.map (fun r => r.2.1)).sum,
   (if base > 0 then ["Base compatibility score"] else []) ++ fired.map (fun r => r.2.2))

/-- The bonus-rule table with the meal-type condition amended to Python
truthiness: the preference's meal_type must be a non-empty string. -/
def amended_bonus_rules (prefs : UserPreferences) (dish : Dish) : List (Bool × ℚ × String) :=
  [(lower prefs.cuisine == "any" || lower prefs.cuisine == lower dish.cuisine,
    CUISINE_BONUS, "Matches cuisine: " ++ dish.cuisine),
   (prefs.is_halal && dish.is_halal, HALAL_BONUS, "Is Halal"),
   (prefs.is_vegetarian && dish.is_vegetarian, VEGETARIAN_BONUS, "Is Vegetarian"),
   ((prefs.meal_type.getD "" != "") && (lower (prefs.meal_type.getD "") == lower dish.meal_type),
    MEAL_TYPE_BONUS, "Matches meal type: " ++ dish.meal_type)]

/-- Final score and reasons of claim C6 with the amended meal-type rule. -/
def amended_score_and_reasons (cfg : FuzzyConfig) (prefs : UserPreferences) (dish : Dish) : ℚ × List String :=
  let base := simple_fuzzy_inference cfg prefs.budget prefs.spiciness
  let fired := (amended_bonus_rules prefs dish).filter (fun r => r.1)
  (base + (fired.map (fun r => r.2.1)).sum,
   (if base > 0 then ["Base compatibility score"] else []) ++ fired.map (fun r => r.2.2))

/-- A preference whose meal_type is set to the empty string. -/
def p6 : UserPreferences := ⟨0, "x", 0, false, false, some ""⟩

/-- A dish whose meal_type is the empty string. -/
def d6 : Dish := ⟨"d", 0, "y", 0, "", false, false⟩

/-- C6 counterexample: with meal_type = some "" (set, and equal to the
item's empty meal_type case-insensitively), the code fires no meal-type
bonus (Python treats the empty string as falsy) while the claim's rule
table does, so the claimed score and reasons differ from the code's. -/
theorem C6_scoring_counterexample :
    score_and_reasons cfg0 p6 d6 = (0, []) ∧
    claimed_score_and_reasons cfg0 p6 d6 = (5, ["Matches meal type: "]) ∧
    score_and_reasons cfg0 p6 d6 ≠ claimed_score_and_reasons cfg0 p6 d6 := by
  have hcui : (lower "x" == "any" || lower "x" == lower "y") = false := rfl
  have hmeal : (!(("" : String) == "") && (lower "" == lower "")) = false := rfl
  have hmeal2 : ((Option.some "").isSome && (lower ((Option.some "").getD "") == lower "")) = true := rfl
  have h1 : score_and_reasons cfg0 p6 d6 = (0, []) := by
    simp only [score_and_reasons, p6, d6, base_score_cfg0, hcui, hmeal]
    norm_num
  have h2 : claimed_score_and_reasons cfg0 p6 d6 = (5, ["Matches meal type: "]) := by
    simp only [claimed_score_and_reasons, claimed_bonus_rules, p6, d6, base_score_cfg0,
      hcui, hmeal2]
    norm_num [MEAL_TYPE_BONUS]
  refine ⟨h1, h2, ?_⟩
  rw [h1, h2]
  simp

/-- C6 amended: final_score = base score plus the bonuses of exactly the
fired rules, and the reasons are the base reason (iff base score > 0)
followed by the fired rules' reasons in the fixed order, where the
meal-type rule fires iff preference.meal_type is a non-empty string equal
to item.meal_type case-insensitively. -/
theorem C6_scoring_amended (cfg : FuzzyConfig) (prefs : UserPreferences) (dish : Dish) :
    score_and_reasons cfg prefs dish = amended_score_and_reasons cfg prefs dish := by
  obtain ⟨pb, pc, ps, ph, pv, pm⟩ := prefs
  obtain ⟨dn, dp, dc, dsp, dmt, dh, dv⟩ := dish
  simp only [score_and_reasons, amended_score_and_reasons, amended_bonus_rules]
  generalize simple_fuzzy_inference cfg pb ps = base
  have hmeq : (match pm with
      | none => false
      | some mt => !(mt == "") && (lower mt == lower dmt)) =
      ((pm.getD "" != "") && (lower (pm.getD "") == lower dmt)) := by
    rcases pm with _ | mt <;> rfl
  rw [hmeq]
  cases hc : (lower pc == "any" || lower pc == lower dc) <;>
    cases hm : ((pm.getD "" != "") && (lower (pm.getD "") == lower dmt)) <;>
    cases ph <;> cases pv <;> cases dh <;> cases dv <;>
    simp [List.filter, Prod.ext_iff] <;>
    ring

theorem filter_orderedInsert (q : ℚ) (x : ScoredDish) (l : List ScoredDish) :
    (List.orderedInsert (fun a b => b.score ≤ a.score) x l).filter (fun r => r.score == q) =
      if x.score = q then x :: l.filter (fun r => r.score == q)
      else l.filter (fun r => r.score == q) := by
  induction l with
  | nil =>
    by_cases hxq : x.score = q <;> simp [List.orderedInsert, List.filter_cons, hxq]
  | cons b t ih =>
    by_cases hr : b.score ≤ x.score
    · rw [show List.orderedInsert (fun a b => b.score ≤ a.score) x (b :: t) = x :: b :: t from by
        simp [List.orderedInsert, hr]]
      by_cases hxq : x.score = q <;> by_cases hbq : b.score = q <;>
        simp [List.filter_cons, hxq, hbq]
    · rw [show List.orderedInsert (fun a b => b.score ≤ a.score) x (b :: t) =
          b :: List.orderedInsert (fun a b => b.score ≤ a.score) x t from by
        simp [List.orderedInsert, hr]]
      by_cases hxq : x.score = q <;> by_cases hbq : b.score = q
      · exact absurd (by simp [hbq, hxq] : b.score ≤ x.score) hr
      · simp [List.filter_cons, hxq, hbq, ih]
      · simp [List.filter_cons, hxq, hbq, ih]
      · simp [List.filter_cons, hxq, hbq, ih]

theorem filter_insertionSort (q : ℚ) (l : List ScoredDish) :
    (List.insertionSort (fun a b => b.score ≤ a.score) l).filter (fun r => r.score == q) =
      l.filter (fun r => r.score == q) := by
  induction l with
  | nil => rfl
  | cons x t ih =>
    simp only [List.insertionSort, filter_orderedInsert, ih, List.filter_cons]
    by_cases hxq : x.score = q <;> simp [hxq]

/-- C7: the returned list is sorted in non-increasing order of final_score,
and entries of any fixed score appear as a sublist of the scored-dishes
list (which is in original catalog order), i.e. ties keep catalog order. -/
theorem C7_sorted_ties_catalog_order (cfg : FuzzyConfig) (maxRec : Nat) (dishes : List Dish)
    (prefs : UserPreferences) :
    ((get_recommendations cfg maxRec dishes prefs).1.Pairwise (fun a b => b.score ≤ a.score)) ∧
    (∀ q : ℚ, List.Sublist
      ((get_recommendations cfg maxRec dishes prefs).1.filter (fun r => r.score == q))
      ((calculate_recommendations cfg dishes prefs).filter (fun r => r.score == q))) := by
  constructor
  · simp only [get_recommendations]
    by_cases he : (calculate_recommendations cfg dishes prefs).isEmpty = true
    · rw [if_pos he]
      exact List.Pairwise.nil
    · rw [if_neg he]
      have hs : List.Sorted (fun a b : ScoredDish => b.score ≤ a.score)
          (List.insertionSort (fun a b => b.score ≤ a.score)
            (calculate_recommendations cfg dishes prefs)) := by
        letI : IsTotal ScoredDish (fun a b => b.score ≤ a.score) :=
          ⟨fun a b => le_total b.score a.score⟩
        letI : IsTrans ScoredDish (fun a b => b.score ≤ a.score) :=
          ⟨fun a b c hab hbc => le_trans hbc hab⟩
        exact List.sorted_insertionSort _ _
      exact List.Pairwise.sublist (List.take_sublist _ _) hs
  · intro q
    simp only [get_recommendations]
    by_cases he : (calculate_recommendations cfg dishes prefs).isEmpty = true
    · rw [if_pos he]
      simp
    · rw [if_neg he]
      have h1 := (List.take_sublist maxRec
        (List.insertionSort (fun a b : ScoredDish => b.score ≤ a.score)
          (calculate_recommendations cfg dishes prefs))).filter (fun r => r.score == q)
      rw [filter_insertionSort] at h1
      exact h1

/-- A non-wildcard preference matching the only dish cuisine. -/
def p2 : UserPreferences := ⟨10, "chinese", 0, false, false, none⟩

/-- A dish passing every filter of p2. -/
def d2 : Dish := ⟨"dumplings", 5, "chinese", 0, "main_course", false, false⟩

theorem filters_applied_eval (cfg : FuzzyConfig) (maxRec : Nat) (dishes : List Dish)
    (prefs : UserPreferences) :
    (get_recommendations cfg maxRec dishes prefs).2.filters_applied =
      (if dishes.any (fun d => budget_excludes prefs d) then ["budget"] else []) ++
      (if lower prefs.cuisine != "any" then ["cuisine"] else []) ++
      (if prefs.is_halal then ["halal"] else []) ++
      (if prefs.is_vegetarian then ["vegetarian"] else []) := by
  simp only [get_recommendations]
  rw [apply_ite (fun p : List ScoredDish × RecommendationMetadata => p.2.filters_applied)]
  dsimp only
  rw [ite_self]

theorem filtered_candidates_eval (cfg : FuzzyConfig) (maxRec : Nat) (dishes : List Dish)
    (prefs : UserPreferences) :
    (get_recommendations cfg maxRec dishes prefs).2.filtered_candidates =
      (dishes.filter (fun d => dish_passes_filters prefs d)).length := by
  simp only [get_recommendations]
  rw [apply_ite (fun p : List ScoredDish × RecommendationMetadata => p.2.filtered_candidates)]
  dsimp only
  rw [ite_self]

/-- C8 counterexample: with a single dish of cuisine "chinese" and the
preference cuisine "chinese", the code reports the "cuisine" filter as
applied although it excludes no candidate of the input list. -/
theorem C8_filters_applied_counterexample :
    "cuisine" ∈ (get_recommendations cfg0 3 [d2] p2).2.filters_applied ∧
    cuisine_excludes p2 d2 = false := by
  refine ⟨?_, rfl⟩
  rw [show (get_recommendations cfg0 3 [d2] p2).2.filters_applied = ["cuisine"] from by
    rw [filters_applied_eval]
    rfl]
  exact List.mem_singleton_self _

/-- C8 amended: "budget" appears in filters_applied iff the budget filter
excludes at least one input candidate, while "cuisine" appears iff the
preference cuisine is not the wildcard "any", "halal" iff the preference
requests halal, and "vegetarian" iff it requests vegetarian — for these
three the code inspects only the preference, not the candidates. -/
theorem C8_filters_applied_amended (cfg : FuzzyConfig) (maxRec : Nat) (dishes : List Dish)
    (prefs : UserPreferences) :
    ("budget" ∈ (get_recommendations cfg maxRec dishes prefs).2.filters_applied ↔
      ∃ d ∈ dishes, budget_excludes prefs d = true) ∧
    ("cuisine" ∈ (get_recommendations cfg maxRec dishes prefs).2.filters_applied ↔
      lower prefs.cuisine ≠ "any") ∧
    ("halal" ∈ (get_recommendations cfg maxRec dishes prefs).2.filters_applied ↔
      prefs.is_halal = true) ∧
    ("vegetarian" ∈ (get_recommendations cfg maxRec dishes prefs).2.filters_applied ↔
      prefs.is_vegetarian = true) := by
  rw [filters_applied_eval]
  split_ifs with h1 h2 h3 h4 <;>
    simp_all [List.any_eq_true, bne_iff_ne]

/-- Every list of filter names yields a non-empty suggestions string. -/
theorem suggestions_text_ne (l : List String) : suggestions_text l ≠ "" := by
  rcases l with _ | ⟨a, t⟩
  · decide
  · simp only [suggestions_text, List.isEmpty_cons, Bool.false_eq_true, if_false]
    intro heq
    have hd := congrArg String.data heq
    rw [String.data_append, String.data_append] at hd
    rw [List.append_eq_nil] at hd
    rw [List.append_eq_nil] at hd
    exact absurd hd.1.1 (by decide)

theorem generate_suggestions_ne (fa : List String) : generate_suggestions fa ≠ "" :=
  suggestions_text_ne _

theorem base_score_nonneg (cfg : FuzzyConfig) (b s : ℚ) :
    0 ≤ simple_fuzzy_inference cfg b s :=
  le_max_left 0 _

theorem score_pos_of_cuisine (cfg : FuzzyConfig) (prefs : UserPreferences) (d : Dish)
    (hcf : (lower prefs.cuisine == "any" || lower prefs.cuisine == lower d.cuisine) = true) :
    0 < (score_and_reasons cfg prefs d).1 := by
  have hbase := base_score_nonneg cfg prefs.budget prefs.spiciness
  have key : ∀ (c : Bool) (s b : ℚ), 0 ≤ b → 0 < s → 0 < if c = true then s + b else s := by
    intro c s b hb hs
    cases c
    · simpa using hs
    · simpa using add_pos_of_pos_of_nonneg hs hb
  simp only [score_and_reasons, hcf, eq_self_iff_true, if_true]
  apply key _ _ _ (by norm_num [MEAL_TYPE_BONUS])
  apply key _ _ _ (by norm_num [VEGETARIAN_BONUS])
  apply key _ _ _ (by norm_num [HALAL_BONUS])
  exact add_pos_of_nonneg_of_pos hbase (by norm_num [CUISINE_BONUS])

theorem score_dish_isSome_of_passes (cfg : FuzzyConfig) (prefs : UserPreferences) (d : Dish)
    (hp : dish_passes_filters prefs d = true) :
    ∃ r, score_dish cfg prefs d = some r := by
  simp only [dish_passes_filters, Bool.and_eq_true, Bool.not_eq_true'] at hp
  obtain ⟨⟨⟨hb, hc⟩, _⟩, _⟩ := hp
  have hcf : (lower prefs.cuisine == "any" || lower prefs.cuisine == lower d.cuisine) = true := by
    simp only [cuisine_excludes, Bool.and_eq_false_iff, bne_eq_false_iff_eq] at hc
    rcases hc with h | h
    · simp [h]
    · simp [h]
  have hpos := score_pos_of_cuisine cfg prefs d hcf
  refine ⟨⟨d, (score_and_reasons cfg prefs d).1, (score_and_reasons cfg prefs d).2⟩, ?_⟩
  simp [score_dish, hb, hpos]

/-- C9: whenever the returned recommendation list is empty, the metadata
carries a suggestions string synthesized from the applied filters, that
string is non-empty, and filtered_candidates is 0. -/
theorem C9_empty_result_metadata (cfg : FuzzyConfig) (dishes : List Dish)
    (prefs : UserPreferences)
    (h : (get_recommendations cfg max_recommendations dishes prefs).1 = []) :
    (get_recommendations cfg max_recommendations dishes prefs).2.suggestions =
      some (generate_suggestions
        (get_recommendations cfg max_recommendations dishes prefs).2.filters_applied) ∧
    generate_suggestions
      (get_recommendations cfg max_recommendations dishes prefs).2.filters_applied ≠ "" ∧
    (get_recommendations cfg max_recommendations dishes prefs).2.filtered_candidates = 0 := by
  by_cases he : (calculate_recommendations cfg dishes prefs).isEmpty = true
  · refine ⟨?_, generate_suggestions_ne _, ?_⟩
    · simp only [get_recommendations]
      rw [if_pos he]
    · rw [filtered_candidates_eval, List.length_eq_zero, List.filter_eq_nil_iff]
      intro d hd hpass
      obtain ⟨r, hr⟩ := score_dish_isSome_of_passes cfg prefs d hpass
      have hnil : calculate_recommendations cfg dishes prefs = [] := List.isEmpty_iff.mp he
      have := List.filterMap_eq_nil_iff.mp hnil d hd
      rw [this] at hr
      exact absurd hr (by simp)
  · exfalso
    simp only [get_recommendations] at h
    rw [if_neg he] at h
    have hlen := congrArg List.length h
    rw [List.length_take, List.length_insertionSort, List.length_nil] at hlen
    have hne : calculate_recommendations cfg dishes prefs ≠ [] := by
      intro hq
      exact he (by simp [hq])
    have hpos : 0 < (calculate_recommendations cfg dishes prefs).length :=
      List.length_pos.mpr hne
    simp only [max_recommendations] at hlen
    omega

theorem C9_empty_result_metadata_witness :
    ((get_recommendations cfg0 max_recommendations [] p1).1 = []) ∧
    ((get_recommendations cfg0 max_recommendations [] p1).2.suggestions =
      some (generate_suggestions
        (get_recommendations cfg0 max_recommendations [] p1).2.filters_applied) ∧
    generate_suggestions
      (get_recommendations cfg0 max_recommendations [] p1).2.filters_applied ≠ "" ∧
    (get_recommendations cfg0 max_recommendations [] p1).2.filtered_candidates = 0) :=
  ⟨rfl, C9_empty_result_metadata cfg0 [] p1 rfl⟩

/-- C10: with the default positive bonus configuration, if at least one
candidate passes all four filters (filtered_candidates > 0) then the
returned recommendation list is non-empty. -/
theorem C10_result_nonempty (cfg : FuzzyConfig) (dishes : List Dish) (prefs : UserPreferences)
    (h : 0 < (get_recommendations cfg max_recommendations dishes prefs).2.filtered_candidates) :
    (get_recommendations cfg max_recommendations dishes prefs).1 ≠ [] := by
  rw [filtered_candidates_eval] at h
  obtain ⟨d, hd⟩ := List.exists_mem_of_length_pos h
  obtain ⟨hdm, hdp⟩ := List.mem_filter.mp hd
  obtain ⟨r, hr⟩ := score_dish_isSome_of_passes cfg prefs d hdp
  have hmem : r ∈ calculate_recommendations cfg dishes prefs :=
    List.mem_filterMap.mpr ⟨d, hdm, hr⟩
  have hne : ¬((calculate_recommendations cfg dishes prefs).isEmpty = true) := by
    simp [List.isEmpty_iff]
    exact List.ne_nil_of_mem hmem
  simp only [get_recommendations]
  rw [if_neg hne]
  intro hcontra
  have hlen := congrArg List.length hcontra
  rw [List.length_take, List.length_insertionSort, List.length_nil] at hlen
  have hpos : 0 < (calculate_recommendations cfg dishes prefs).length :=
    List.length_pos.mpr (List.ne_nil_of_mem hmem)
  simp only [max_recommendations] at hlen
  omega

theorem C10_result_nonempty_witness :
    0 < (get_recommendations cfg0 max_recommendations [d2] p2).2.filtered_candidates ∧
    (get_recommendations cfg0 max_recommendations [d2] p2).1 ≠ [] := by
  have hp : 0 < (get_recommendations cfg0 max_recommendations [d2] p2).2.filtered_candidates := by
    rw [filtered_candidates_eval]
    decide
  exact ⟨hp, C10_result_nonempty cfg0 [d2] p2 hp⟩

end Makan
